import Mathlib

/-!
Shallow embedding of the monorepo detection engine of
`src/src/utils/getProjectInfo.ts`.

Modelling conventions:
* A directory tree is a value of `FSEntry`; all filesystem reads of the
  source (`fs.access`, `fs.readFile` + `JSON.parse`, `fs.readdir`) become
  total lookups over that value.
* A file's content is modelled by the parse result of the schema its
  reader expects (`FileData`): `manifest` is a parseable `package.json`
  object, `lerna` a parseable `lerna.json`, and so on; `unparseable`
  models a present file that `JSON.parse` rejects, `blob` a file whose
  content is never parsed (lockfiles, plain text).
* JSON objects are modelled as association lists with distinct keys
  (what `JSON.parse` produces); lookup takes the first matching key.
* JavaScript truthiness on version strings: only the empty string is
  falsy among strings, so `deps?.k` is truthy iff the mapped value is a
  non-empty string.
* All functions are total; the source's catch-all handlers correspond to
  the explicit `Option`/default branches, and text rendering of the
  final report is elided in favour of the record of computed fields.
-/

/-- Parsed `package.json` `workspaces` field: either an array of glob
strings or an object that may carry a `packages` array. -/
inductive WorkspacesField where
  | arr (globs : List String)
  | obj (packages : Option (List String))
deriving DecidableEq

/-- Parsed `package.json` content (the fields the engine reads). -/
structure Manifest where
  name : Option String
  version : Option String
  dependencies : List (String × String)
  devDependencies : List (String × String)
  workspaces : Option WorkspacesField
deriving DecidableEq

def emptyManifest : Manifest :=
  { name := none, version := none, dependencies := [], devDependencies := [],
    workspaces := none }

/-- Content of a file, as seen by the parser that reads it. -/
inductive FileData where
  | manifest (m : Manifest)
  | lerna (packages : Option (List String))
  | workspaceJson (roots : List String)
  | projectJson (name : Option String)
  | rushJson (folders : Option (List String))
  | pnpmYaml (packages : Option (List String))
  | unparseable
  | blob
deriving DecidableEq

/-- A directory tree: the filesystem under the inspected root. -/
inductive FSEntry where
  | file (data : FileData)
  | dir (entries : List (String × FSEntry))

/-- Split a relative path on `/`, dropping empty segments (mirrors the
normalisation `path.join` performs on the paths the engine builds). -/
def splitSegsAux : List Char → List Char → List (List Char)
  | [], acc => [acc.reverse]
  | c :: cs, acc =>
      if c = '/' then acc.reverse :: splitSegsAux cs []
      else splitSegsAux cs (c :: acc)

def splitPath (s : String) : List String :=
  ((splitSegsAux s.data []).map (fun l => String.mk l)).filter (fun t => t ≠ "")

/-- `path.basename`: last path segment. -/
def basename (s : String) : String :=
  (splitPath s).getLast?.getD s

/-- `path.join` for the relative paths the engine builds. -/
def joinRel (a b : String) : String :=
  if a = "" then b else a ++ "/" ++ b

def findInDir (es : List (String × FSEntry)) (name : String) : Option FSEntry :=
  match es.find? (fun e => e.1 = name) with
  | some e => some e.2
  | none => none

/-- Resolve a segment list against the tree. -/
def lookupPath : List String → FSEntry → Option FSEntry
  | [], e => some e
  | c :: cs, FSEntry.dir es =>
      match findInDir es c with
      | some e => lookupPath cs e
      | none => none
  | _ :: _, FSEntry.file _ => none

/-- `fs.access`: succeeds on any existing entry, file or directory. -/
def existsEntry (fs : FSEntry) (p : String) : Bool :=
  (lookupPath (splitPath p) fs).isSome

/-- `fs.readFile` + parse: yields the file's data; directories and
missing paths yield `none` (the caller's catch branch). -/
def readFileData (fs : FSEntry) (p : String) : Option FileData :=
  match lookupPath (splitPath p) fs with
  | some (FSEntry.file d) => some d
  | _ => none

def FSEntry.isDir : FSEntry → Bool
  | FSEntry.dir _ => true
  | FSEntry.file _ => false

/-- `fs.readdir(p, \x7bwithFileTypes: true\x7d)`: entry names paired with
their directory flag, `none` when `p` is not a listable directory. -/
def FSEntry.readdir (fs : FSEntry) (p : String) : Option (List (String × Bool)) :=
  match lookupPath (splitPath p) fs with
  | some (FSEntry.dir es) => some (es.map (fun e => (e.1, e.2.isDir)))
  | _ => none

/-- JSON object key access on an association list (keys distinct). -/
def lookupVal : List (String × String) → String → Option String
  | [], _ => none
  | p :: t, k => if p.1 = k then some p.2 else lookupVal t k

/-- JavaScript object spread `\x7b ...a, ...b \x7d` on two dependency
objects: keys of `a` not present in `b`, then all of `b`, so for a
shared key the `b` entry is the one that survives. -/
def mergeDeps (a b : List (String × String)) : List (String × String) :=
  a.filter (fun p => (lookupVal b p.1).isNone) ++ b

/-- JS truthy test of `deps?.k`: the key is present with a non-empty
version string. -/
def truthy (deps : List (String × String)) (k : String) : Bool :=
  match lookupVal deps k with
  | some v => if v = "" then false else true
  | none => false

/-- JS `x || y` on an optional string field: empty and absent both fall
through to the default. -/
def jsOr (o : Option String) (d : String) : String :=
  match o with
  | some s => if s = "" then d else s
  | none => d

/-- `detectFramework`: fixed-priority first-match over the merged
dependency object. -/
def detectFramework (deps : List (String × String)) : String :=
  if truthy deps "next" then "Next.js"
  else if truthy deps "nuxt" then "Nuxt.js"
  else if truthy deps "gatsby" then "Gatsby"
  else if truthy deps "react" then "React"
  else if truthy deps "vue" then "Vue.js"
  else if truthy deps "@angular/core" then "Angular"
  else if truthy deps "svelte" then "Svelte"
  else if truthy deps "express" then "Express.js"
  else if truthy deps "fastify" then "Fastify"
  else if truthy deps "@nestjs/core" then "NestJS"
  else if truthy deps "solid" then "Solid.js"
  else if truthy deps "astro" then "Astro"
  else "Unknown"

/-- `!!(deps?.typescript || deps?.['@types/node'])`. -/
def tsFlagOfDeps (deps : List (String × String)) : Bool :=
  truthy deps "typescript" || truthy deps "@types/node"

/-- `checkTypeScriptConfig`: `tsconfig.json` existence. -/
def checkTypeScriptConfig (fs : FSEntry) : Bool :=
  existsEntry fs "tsconfig.json"

/-- `checkYarnLock`. -/
def checkYarnLock (fs : FSEntry) : Bool :=
  existsEntry fs "yarn.lock"

/-- `checkNpmLock`. -/
def checkNpmLock (fs : FSEntry) : Bool :=
  existsEntry fs "package-lock.json"

/-- `detectPackageManager`: first matching lockfile wins. -/
def detectPackageManager (fs : FSEntry) : String :=
  if existsEntry fs "yarn.lock" then "Yarn"
  else if existsEntry fs "pnpm-lock.yaml" then "pnpm"
  else if existsEntry fs "package-lock.json" then "npm"
  else "Unknown"

/-- Remove the first occurrence of `pat` from a character list
(JS `String.prototype.replace` with a string pattern). -/
def startsWithPat : List Char → List Char → Bool
  | _, [] => true
  | [], _ :: _ => false
  | c :: cs, p :: ps => if c = p then startsWithPat cs ps else false

def removeFirstSub (pat : List Char) : List Char → List Char
  | [] => []
  | c :: cs =>
      if startsWithPat (c :: cs) pat then (c :: cs).drop pat.length
      else c :: removeFirstSub pat cs

/-- `glob.replace('/\x2a', '')` (the `\x2a` stands for the star): drop
the first occurrence of the two-character wildcard suffix marker. -/
def stripSlashStar (s : String) : String :=
  String.mk (removeFirstSub ['/', '*'] s.data)

/-- Character membership in a character list. -/
def charIn (c : Char) : List Char → Bool
  | [] => false
  | a :: as => if a = c then true else charIn c as

/-- `s.includes(c)` for a single character. -/
def hasChar (s : String) (c : Char) : Bool :=
  charIn c s.data

/-- `expandWorkspaceGlob`: any pattern containing a star takes the
wildcard branch (strip the first `/`-star, list that base directory,
keep subdirectories); otherwise the pattern is returned verbatim. -/
def expandWorkspaceGlob (fs : FSEntry) (glob : String) : List String :=
  if hasChar glob '*' then
    let baseDir := stripSlashStar glob
    match FSEntry.readdir fs baseDir with
    | some entries =>
        (entries.filter (fun e => e.2)).map (fun e => joinRel baseDir e.1)
    | none => []
  else [glob]

/-- Sub-project descriptor pushed by the analyzers. -/
structure SubProject where
  name : String
  relativePath : String
  framework : String
  hasTypeScript : Bool
  version : Option String
deriving DecidableEq

/-- Read and parse `<dir>/package.json` as a manifest. -/
def readManifestAt (fs : FSEntry) (dir : String) : Option Manifest :=
  match readFileData fs (joinRel dir "package.json") with
  | some (FileData.manifest m) => some m
  | _ => none

/-- Body of the inner loop of `analyzeWorkspaces`: a descriptor when the
directory's manifest is present and parseable, nothing otherwise. -/
def analyzeDir (fs : FSEntry) (workspacePath : String) : Option SubProject :=
  match readManifestAt fs workspacePath with
  | some m =>
      let deps := mergeDeps m.dependencies m.devDependencies
      some { name := jsOr m.name (basename workspacePath),
             relativePath := workspacePath,
             framework := detectFramework deps,
             hasTypeScript := tsFlagOfDeps deps,
             version := m.version }
  | none => none

/-- `analyzeWorkspaces`: declarations in order, expansion order within
each declaration, manifest-less directories skipped. -/
def analyzeWorkspaces (fs : FSEntry) (workspaces : List String) : List SubProject :=
  workspaces.flatMap (fun w => (expandWorkspaceGlob fs w).filterMap (analyzeDir fs))

/-- Body of the loop of `analyzeNxProjects`: a descriptor is pushed for
every project path; `project.json` then `package.json` each override the
running name when they parse and carry a truthy `name`. -/
def nxDescriptor (fs : FSEntry) (projectPath : String) : SubProject :=
  let name0 := basename projectPath
  let name1 :=
    match readFileData fs (joinRel projectPath "project.json") with
    | some (FileData.projectJson n) => jsOr n name0
    | _ => name0
  let pInfo := readManifestAt fs projectPath
  let name2 :=
    match pInfo with
    | some m => jsOr m.name name1
    | none => name1
  let m := pInfo.getD emptyManifest
  let deps := mergeDeps m.dependencies m.devDependencies
  { name := name2, relativePath := projectPath,
    framework := detectFramework deps,
    hasTypeScript := tsFlagOfDeps deps,
    version := m.version }

/-- `analyzeNxProjects`. -/
def analyzeNxProjects (fs : FSEntry) (projects : List String) : List SubProject :=
  projects.map (nxDescriptor fs)

structure LernaCheck where
  isLerna : Bool
  packages : List String
deriving DecidableEq

/-- `checkLernaConfig`: `lerna.json` must exist and parse; a present
`packages` array is kept as-is (even empty), an absent one defaults. -/
def checkLernaConfig (fs : FSEntry) : LernaCheck :=
  match readFileData fs "lerna.json" with
  | some (FileData.lerna pkgs) =>
      { isLerna := true, packages := pkgs.getD ["packages/*"] }
  | _ => { isLerna := false, packages := [] }

/-- Extraction of the raw globs from a `workspaces` field:
`Array.isArray(w) ? w : w.packages || []`. -/
def workspacesGlobs : WorkspacesField → List String
  | WorkspacesField.arr g => g
  | WorkspacesField.obj p => p.getD []

structure YarnCheck where
  isYarnWorkspace : Bool
  workspaces : List String
deriving DecidableEq

/-- `checkYarnWorkspaces`: parseable root manifest with a `workspaces`
field, plus a `yarn.lock`. -/
def checkYarnWorkspaces (fs : FSEntry) : YarnCheck :=
  match readFileData fs "package.json" with
  | some (FileData.manifest m) =>
      match m.workspaces with
      | some w =>
          if checkYarnLock fs then
            { isYarnWorkspace := true, workspaces := workspacesGlobs w }
          else { isYarnWorkspace := false, workspaces := [] }
      | none => { isYarnWorkspace := false, workspaces := [] }
  | _ => { isYarnWorkspace := false, workspaces := [] }

structure NpmCheck where
  isNpmWorkspace : Bool
  workspaces : List String
deriving DecidableEq

/-- `checkNpmWorkspaces`: `workspaces` field, no `yarn.lock`, and a
`package-lock.json`. -/
def checkNpmWorkspaces (fs : FSEntry) : NpmCheck :=
  match readFileData fs "package.json" with
  | some (FileData.manifest m) =>
      match m.workspaces with
      | some w =>
          if !checkYarnLock fs && checkNpmLock fs then
            { isNpmWorkspace := true, workspaces := workspacesGlobs w }
          else { isNpmWorkspace := false, workspaces := [] }
      | none => { isNpmWorkspace := false, workspaces := [] }
  | _ => { isNpmWorkspace := false, workspaces := [] }

structure PnpmCheck where
  isPnpmWorkspace : Bool
  workspaces : List String
deriving DecidableEq

/-- `checkPnpmWorkspaces`: the line-oriented `packages:` block match of
`pnpm-workspace.yaml` is modelled by the `pnpmYaml` payload — `some`
when the block regex matches, carrying the extracted entries. -/
def checkPnpmWorkspaces (fs : FSEntry) : PnpmCheck :=
  match readFileData fs "pnpm-workspace.yaml" with
  | some (FileData.pnpmYaml (some pkgs)) =>
      { isPnpmWorkspace := true, workspaces := pkgs }
  | _ => { isPnpmWorkspace := false, workspaces := [] }

structure NxCheck where
  isNx : Bool
  projects : List String
deriving DecidableEq

/-- `checkNxConfig`: `nx.json` existence claims the directory; projects
come from a parseable `workspace.json`, else from listing the immediate
subdirectories of `apps` and `libs`. -/
def checkNxConfig (fs : FSEntry) : NxCheck :=
  if existsEntry fs "nx.json" then
    let projects :=
      match readFileData fs "workspace.json" with
      | some (FileData.workspaceJson roots) => roots
      | _ =>
          (match FSEntry.readdir fs "apps" with
           | some es => (es.filter (fun e => e.2)).map (fun e => "apps/" ++ e.1)
           | none => []) ++
          (match FSEntry.readdir fs "libs" with
           | some es => (es.filter (fun e => e.2)).map (fun e => "libs/" ++ e.1)
           | none => [])
    { isNx := true, projects := projects }
  else { isNx := false, projects := [] }

structure RushCheck where
  isRush : Bool
  projects : List String
deriving DecidableEq

/-- `checkRushConfig`: `rush.json` must exist and parse. -/
def checkRushConfig (fs : FSEntry) : RushCheck :=
  match readFileData fs "rush.json" with
  | some (FileData.rushJson folders) =>
      { isRush := true, projects := folders.getD [] }
  | _ => { isRush := false, projects := [] }

structure MonorepoInfo where
  isMonorepo : Bool
  tool : String
  packageManager : String
  workspaces : List String
  subProjects : List SubProject
deriving DecidableEq

/-- `detectMonorepoType`: detectors consulted in the source's fixed
order, first claimant wins. -/
def detectMonorepoType (fs : FSEntry) : MonorepoInfo :=
  if (checkLernaConfig fs).isLerna then
    { isMonorepo := true, tool := "Lerna",
      packageManager := detectPackageManager fs,
      workspaces := (checkLernaConfig fs).packages,
      subProjects := analyzeWorkspaces fs (checkLernaConfig fs).packages }
  else if (checkYarnWorkspaces fs).isYarnWorkspace then
    { isMonorepo := true, tool := "Yarn Workspaces",
      packageManager := detectPackageManager fs,
      workspaces := (checkYarnWorkspaces fs).workspaces,
      subProjects := analyzeWorkspaces fs (checkYarnWorkspaces fs).workspaces }
  else if (checkNpmWorkspaces fs).isNpmWorkspace then
    { isMonorepo := true, tool := "npm Workspaces",
      packageManager := detectPackageManager fs,
      workspaces := (checkNpmWorkspaces fs).workspaces,
      subProjects := analyzeWorkspaces fs (checkNpmWorkspaces fs).workspaces }
  else if (checkPnpmWorkspaces fs).isPnpmWorkspace then
    { isMonorepo := true, tool := "pnpm Workspaces",
      packageManager := detectPackageManager fs,
      workspaces := (checkPnpmWorkspaces fs).workspaces,
      subProjects := analyzeWorkspaces fs (checkPnpmWorkspaces fs).workspaces }
  else if (checkNxConfig fs).isNx then
    { isMonorepo := true, tool := "Nx",
      packageManager := detectPackageManager fs,
      workspaces := (checkNxConfig fs).projects,
      subProjects := analyzeNxProjects fs (checkNxConfig fs).projects }
  else if (checkRushConfig fs).isRush then
    { isMonorepo := true, tool := "Rush",
      packageManager := detectPackageManager fs,
      workspaces := (checkRushConfig fs).projects,
      subProjects := analyzeWorkspaces fs (checkRushConfig fs).projects }
  else
    { isMonorepo := false, tool := "None",
      packageManager := detectPackageManager fs,
      workspaces := [], subProjects := [] }

/-- The computed fields of the final report (text rendering elided). -/
structure ProjectReport where
  projectName : String
  projectPath : String
  hasPackageJson : Bool
  framework : String
  hasTypeScript : Bool
  monorepo : MonorepoInfo
deriving DecidableEq

/-- `getProjectInfo`: root manifest soft-failed to defaults; note that
`hasPackageJson` is set as soon as `fs.access` succeeds, before the
parse is attempted. -/
def getProjectInfo (projectPath : String) (fs : FSEntry) : ProjectReport :=
  let monorepoInfo := detectMonorepoType fs
  let base := basename projectPath
  let step :=
    match lookupPath (splitPath "package.json") fs with
    | some (FSEntry.file (FileData.manifest m)) => (true, jsOr m.name base, m)
    | some _ => (true, base, emptyManifest)
    | none => (false, base, emptyManifest)
  let deps := mergeDeps step.2.2.dependencies step.2.2.devDependencies
  { projectName := step.2.1, projectPath := projectPath,
    hasPackageJson := step.1,
    framework := detectFramework deps,
    hasTypeScript := tsFlagOfDeps deps || checkTypeScriptConfig fs,
    monorepo := monorepoInfo }

/-! ### Spec-side definitions (written from the specification's words,
for the refinement claims) and concrete fixtures -/

/-- Spec 4.3: the ordered lockfile → label table of the Package-Manager
Detector. -/
def pmRules : List (String × String) :=
  [("yarn.lock", "Yarn"), ("pnpm-lock.yaml", "pnpm"), ("package-lock.json", "npm")]

/-- Spec 4.3: first matching lockfile rule wins, `Unknown` otherwise. -/
def pmFirstMatch (fs : FSEntry) : String :=
  ((pmRules.find? (fun r => existsEntry fs r.1)).map (fun r => r.2)).getD "Unknown"

/-- Spec 4.5: a candidate directory contributes exactly one descriptor
when its manifest is readable and parseable (name defaulting to the
directory's base name), and none otherwise. -/
def resolveDirSpec (fs : FSEntry) (dir : String) : List SubProject :=
  match readManifestAt fs dir with
  | some m =>
      [{ name := jsOr m.name (basename dir), relativePath := dir,
         framework := detectFramework (mergeDeps m.dependencies m.devDependencies),
         hasTypeScript := tsFlagOfDeps (mergeDeps m.dependencies m.devDependencies),
         version := m.version }]
  | none => []

/-- Spec 4.5: declarations in original order, expansion order within
each declaration, concatenated with no further sorting. -/
def workspaceResolverSpec (fs : FSEntry) : List String → List SubProject
  | [] => []
  | w :: ws =>
      ((expandWorkspaceGlob fs w).map (resolveDirSpec fs)).flatten
        ++ workspaceResolverSpec fs ws

/-- Amended Nx name rule: the manifest's truthy `name` wins, then the
`project.json` declared name, then the directory base name. -/
def nxNameSpec (fs : FSEntry) (projectPath : String) : String :=
  let fallback :=
    match readFileData fs (joinRel projectPath "project.json") with
    | some (FileData.projectJson n) => jsOr n (basename projectPath)
    | _ => basename projectPath
  match readManifestAt fs projectPath with
  | some m => jsOr m.name fallback
  | none => fallback

/-- The TypeScript flag a sub-project directory's manifest induces:
a truthy `typescript` or `@types/node` entry of the merged dependency
object (`false` when the manifest is missing or unparseable). -/
def subTsFlag (fs : FSEntry) (dir : String) : Bool :=
  match readManifestAt fs dir with
  | some m => tsFlagOfDeps (mergeDeps m.dependencies m.devDependencies)
  | none => false

/-- The TypeScript flag the Nx analyzer computes for a project
directory: same dependency test, over the manifest when present and the
empty object otherwise; `tsconfig.json` plays no part. -/
def nxTsFlag (fs : FSEntry) (dir : String) : Bool :=
  tsFlagOfDeps
    (mergeDeps ((readManifestAt fs dir).getD emptyManifest).dependencies
      ((readManifestAt fs dir).getD emptyManifest).devDependencies)

/-- The merged dependency object of the root manifest (empty when the
root manifest is missing or unparseable). -/
def rootMergedDeps (fs : FSEntry) : List (String × String) :=
  match lookupPath (splitPath "package.json") fs with
  | some (FSEntry.file (FileData.manifest m)) =>
      mergeDeps m.dependencies m.devDependencies
  | _ => mergeDeps [] []

/-- The root manifest's `workspaces` field, `none` when the manifest is
missing, unparseable or has no such field. -/
def rootWorkspacesField (fs : FSEntry) : Option WorkspacesField :=
  match readFileData fs "package.json" with
  | some (FileData.manifest m) => m.workspaces
  | _ => none

/-- Marker of the Yarn/npm workspaces conventions: a `workspaces` field
in the root manifest together with one of the two relevant lockfiles. -/
def hasWorkspacesMarker (fs : FSEntry) : Bool :=
  (rootWorkspacesField fs).isSome
    && (existsEntry fs "yarn.lock" || existsEntry fs "package-lock.json")

/-- Marker of the pnpm convention: a `pnpm-workspace.yaml` whose
`packages:` block matches. -/
def hasPnpmMarker (fs : FSEntry) : Bool :=
  match readFileData fs "pnpm-workspace.yaml" with
  | some (FileData.pnpmYaml (some _)) => true
  | _ => false

/-- An empty root directory. -/
def fsEmpty : FSEntry := FSEntry.dir []

/-- Root with a dependencies entry and a devDependencies entry of the
same key, the devDependencies value empty. -/
def fsC1 : FSEntry := FSEntry.dir
  [("pkg", FSEntry.dir
    [("package.json", FSEntry.file (FileData.manifest
      { emptyManifest with
          name := some "pkg-c1",
          dependencies := [("typescript", "^5.0.0")],
          devDependencies := [("typescript", "")] }))])]

/-- Nx candidate directory carrying both a `project.json` declared name
and a manifest name. -/
def fsC2 : FSEntry := FSEntry.dir
  [("apps", FSEntry.dir
    [("web", FSEntry.dir
      [("project.json", FSEntry.file (FileData.projectJson (some "nx-name"))),
       ("package.json", FSEntry.file (FileData.manifest
         { emptyManifest with name := some "pkg-name" }))])])]

/-- Root where the mangled base directory of the unsupported pattern
`packages/\x2a/src` (the `\x2a` stands for the star) happens to exist
and to contain a manifested subdirectory. -/
def fsC3 : FSEntry := FSEntry.dir
  [("packages", FSEntry.dir
    [("src", FSEntry.dir
      [("x", FSEntry.dir
        [("package.json", FSEntry.file (FileData.manifest
          { emptyManifest with name := some "x-proj" }))])])])]

/-- Root carrying both a `lerna.json` and an `nx.json`. -/
def fsBoth : FSEntry := FSEntry.dir
  [("lerna.json", FSEntry.file (FileData.lerna none)),
   ("nx.json", FSEntry.file FileData.blob)]

/-- Root carrying both a yarn and an npm lockfile. -/
def fsC5 : FSEntry := FSEntry.dir
  [("yarn.lock", FSEntry.file FileData.blob),
   ("package-lock.json", FSEntry.file FileData.blob)]

/-- The spec's Glob-Lite example: `packages` holding two subdirectories
and one plain file. -/
def fsC6 : FSEntry := FSEntry.dir
  [("packages", FSEntry.dir
    [("a", FSEntry.dir []), ("b", FSEntry.dir []),
     ("readme.txt", FSEntry.file FileData.blob)])]

/-- A workspace directory whose manifest carries a React dependency. -/
def fsC10w : FSEntry := FSEntry.dir
  [("pkg", FSEntry.dir
    [("package.json", FSEntry.file (FileData.manifest
      { emptyManifest with
          name := some "pkg-a", dependencies := [("react", "^18")] }))])]

/-- The descriptor the resolver produces for `fsC10w`. -/
def dC10 : SubProject :=
  { name := "pkg-a", relativePath := "pkg", framework := "React",
    hasTypeScript := false, version := none }

/-- A workspace directory whose manifest maps `typescript` to the empty
(falsy) version string. -/
def fsC10 : FSEntry := FSEntry.dir
  [("pkg", FSEntry.dir
    [("package.json", FSEntry.file (FileData.manifest
      { emptyManifest with devDependencies := [("typescript", "")] }))])]

/-! ### Helper lemmas -/

theorem lookupVal_mergeDeps_of_some {b : List (String × String)} {k : String}
    {v : String} (a : List (String × String)) (h : lookupVal b k = some v) :
    lookupVal (mergeDeps a b) k = some v := by
  induction a with
  | nil => simpa [mergeDeps] using h
  | cons p t ih =>
      by_cases hpk : p.1 = k
      · have hdrop : (lookupVal b p.1).isNone = false := by
          rw [hpk, h]; rfl
        simpa [mergeDeps, List.filter_cons, hdrop] using ih
      · by_cases hkeep : (lookupVal b p.1).isNone
        · have : lookupVal (mergeDeps (p :: t) b) k
              = lookupVal (mergeDeps t b) k := by
            simp [mergeDeps, List.filter_cons, hkeep, lookupVal, hpk]
          rw [this]; exact ih
        · have : lookupVal (mergeDeps (p :: t) b) k
              = lookupVal (mergeDeps t b) k := by
            simp [mergeDeps, List.filter_cons, hkeep]
          rw [this]; exact ih

theorem lookupVal_mergeDeps_of_none {b : List (String × String)} {k : String}
    (a : List (String × String)) (h : lookupVal b k = none) :
    lookupVal (mergeDeps a b) k = lookupVal a k := by
  induction a with
  | nil => simpa [mergeDeps, lookupVal] using h
  | cons p t ih =>
      by_cases hpk : p.1 = k
      · have hkeep : (lookupVal b p.1).isNone = true := by
          rw [hpk, h]; rfl
        simp [mergeDeps, List.filter_cons, hkeep, lookupVal, hpk, h]
      · by_cases hkeep : (lookupVal b p.1).isNone
        · have hl : lookupVal (mergeDeps (p :: t) b) k
              = lookupVal (mergeDeps t b) k := by
            simp [mergeDeps, List.filter_cons, hkeep, lookupVal, hpk]
          rw [hl, ih]
          simp [lookupVal, hpk]
        · have hl : lookupVal (mergeDeps (p :: t) b) k
              = lookupVal (mergeDeps t b) k := by
            simp [mergeDeps, List.filter_cons, hkeep]
          rw [hl, ih]
          simp [lookupVal, hpk]

theorem charIn_append (c : Char) (l r : List Char) :
    charIn c (l ++ r) = (charIn c l || charIn c r) := by
  induction l with
  | nil => simp [charIn]
  | cons a as ih =>
      by_cases h : a = c <;> simp [charIn, h, ih]

theorem removeFirstSub_append_marker (l : List Char)
    (h : charIn '*' l = false) :
    removeFirstSub ['/', '*'] (l ++ ['/', '*']) = l := by
  induction l with
  | nil => rfl
  | cons c cs ih =>
      have hc : c ≠ '*' := by
        intro hc
        simp [charIn, hc] at h
      have hcs : charIn '*' cs = false := by
        by_cases h0 : c = '*'
        · exact absurd h0 hc
        · simpa [charIn, h0] using h
      have hsw : startsWithPat (c :: cs ++ ['/', '*']) ['/', '*'] = false := by
        cases cs with
        | nil =>
            by_cases hcd : c = '/' <;> simp [startsWithPat, hcd]
        | cons d ds =>
            have hd : d ≠ '*' := by
              intro hd
              simp [charIn, hd] at hcs
            by_cases hcd : c = '/' <;> simp [startsWithPat, hcd, hd]
      show removeFirstSub ['/', '*'] (c :: (cs ++ ['/', '*'])) = c :: cs
      rw [removeFirstSub]
      simp only [List.cons_append] at hsw
      rw [hsw]
      simp [ih hcs]

theorem strData_append (s t : String) : (s ++ t).data = s.data ++ t.data := rfl

theorem strMk_data (s : String) : String.mk s.data = s := rfl

theorem stripSlashStar_trailing (dir : String) (h : hasChar dir '*' = false) :
    stripSlashStar (dir ++ "/*") = dir := by
  unfold stripSlashStar
  rw [strData_append]
  have : ("/*" : String).data = ['/', '*'] := rfl
  rw [this, removeFirstSub_append_marker dir.data h]

theorem hasChar_trailing_star (dir : String) :
    hasChar (dir ++ "/*") '*' = true := by
  unfold hasChar
  rw [strData_append, charIn_append]
  simp [charIn]

theorem resolveDirSpec_eq_toList (fs : FSEntry) (dir : String) :
    resolveDirSpec fs dir = (analyzeDir fs dir).toList := by
  unfold resolveDirSpec analyzeDir
  cases readManifestAt fs dir <;> rfl

theorem filterMap_analyzeDir_eq (fs : FSEntry) (l : List String) :
    l.filterMap (analyzeDir fs) = (l.map (resolveDirSpec fs)).flatten := by
  induction l with
  | nil => rfl
  | cons p ps ih =>
      rw [List.filterMap_cons, List.map_cons, List.flatten_cons,
        resolveDirSpec_eq_toList]
      cases analyzeDir fs p <;> simp [ih]

theorem readFileData_eq_none_of_not_exists (fs : FSEntry) (p : String)
    (h : existsEntry fs p = false) : readFileData fs p = none := by
  unfold existsEntry at h
  unfold readFileData
  cases hl : lookupPath (splitPath p) fs with
  | none => rfl
  | some e => rw [hl] at h; simp at h

/-! ### Claim theorems -/

/-- C1 (counterexample): on a manifest mapping `typescript` to
`^5.0.0` in `dependencies` and to the empty string in
`devDependencies`, the merged dependency object maps `typescript` to
the devDependencies value, not the dependencies value — and the
classification observes it: the sub-project's TypeScript flag comes out
`false`, which it could not under a no-override merge. -/
theorem merge_deps_no_override_refuted :
    lookupVal (mergeDeps [("typescript", "^5.0.0")] [("typescript", "")])
        "typescript" = some ""
    ∧ ¬ lookupVal (mergeDeps [("typescript", "^5.0.0")] [("typescript", "")])
        "typescript" = some "^5.0.0"
    ∧ (analyzeWorkspaces fsC1 ["pkg"]).map (fun d => d.hasTypeScript)
        = [false] := by
  refine ⟨by decide, by decide, by decide⟩

/-- C1 (amended): the dependency object used for classification is the
union of `dependencies` and `devDependencies`, where for a shared key
the `devDependencies` entry overrides the `dependencies` entry
(last-write-wins with `devDependencies` merged last). -/
theorem merge_deps_devdeps_override
    (deps devDeps : List (String × String)) (k : String) :
    (lookupVal (mergeDeps deps devDeps) k
      = match lookupVal devDeps k with
        | some v => some v
        | none => lookupVal deps k)
    ∧ ((lookupVal (mergeDeps deps devDeps) k).isSome
      = ((lookupVal deps k).isSome || (lookupVal devDeps k).isSome)) := by
  cases h : lookupVal devDeps k with
  | some v =>
      have h1 := lookupVal_mergeDeps_of_some deps h
      exact ⟨by rw [h1], by rw [h1]; simp⟩
  | none =>
      have h1 := lookupVal_mergeDeps_of_none deps h
      exact ⟨by rw [h1], by rw [h1]; simp⟩

/-- C2 (counterexample): an Nx candidate directory declaring
`nx-name` in its `project.json` and `pkg-name` in its manifest yields a
descriptor named `pkg-name`: the manifest wins, contradicting the
claimed project.json-first priority. -/
theorem nx_name_priority_refuted :
    (analyzeNxProjects fsC2 ["apps/web"]).map (fun d => d.name) = ["pkg-name"]
    ∧ ¬ (analyzeNxProjects fsC2 ["apps/web"]).map (fun d => d.name)
        = ["nx-name"] := by
  refine ⟨by decide, by decide⟩

theorem nxDescriptor_name (fs : FSEntry) (q : String) :
    (nxDescriptor fs q).name = nxNameSpec fs q := by
  unfold nxDescriptor nxNameSpec
  cases readFileData fs (joinRel q "project.json") with
  | none => cases readManifestAt fs q <;> rfl
  | some d => cases d <;> cases readManifestAt fs q <;> rfl

/-- C2 (amended): for every Nx candidate project directory, the
descriptor's name is chosen with priority: the manifest's truthy `name`
first, then the `project.json` declared name, then the directory's base
name. -/
theorem nx_name_priority_amended (fs : FSEntry) (projects : List String) :
    (analyzeNxProjects fs projects).map (fun d => d.name)
      = projects.map (nxNameSpec fs) := by
  induction projects with
  | nil => rfl
  | cons p ps ih =>
      rw [analyzeNxProjects, List.map_cons, List.map_cons, List.map_cons]
      rw [analyzeNxProjects] at ih
      rw [ih, nxDescriptor_name]

/-- C3 (counterexample): the unsupported declaration
`packages/\x2a/src` (the `\x2a` stands for the star) is not treated as
a literal single path: the expander strips the first wildcard marker
and lists `packages/src`, so against `fsC3` it expands to
`packages/src/x` and contributes one sub-project, not zero. -/
theorem unsupported_glob_literal_refuted :
    expandWorkspaceGlob fsC3 "packages/*/src" = ["packages/src/x"]
    ∧ ¬ expandWorkspaceGlob fsC3 "packages/*/src" = ["packages/*/src"]
    ∧ (analyzeWorkspaces fsC3 ["packages/*/src"]).map (fun d => d.name)
        = ["x-proj"] := by
  refine ⟨by decide, by decide, by decide⟩

/-- C3 (amended): an unsupported wildcard declaration is processed by
the single-wildcard branch — the first `/`-star occurrence is deleted
and the resulting path is listed as a base directory — so whenever that
mangled path is not a listable directory the declaration contributes an
empty expansion (hence zero sub-projects), and no error is raised; the
declaration is never returned as a literal single path. -/
theorem unsupported_glob_degrades_amended (fs : FSEntry) (glob : String)
    (h1 : hasChar glob '*' = true)
    (h2 : FSEntry.readdir fs (stripSlashStar glob) = none) :
    expandWorkspaceGlob fs glob = [] := by
  simp [expandWorkspaceGlob, h1, h2]

/-- C3 (witness): the amended theorem at the unsupported pattern
`a/\x2a/b` against an empty root. -/
theorem unsupported_glob_degrades_witness :
    hasChar "a/*/b" '*' = true
    ∧ FSEntry.readdir fsEmpty (stripSlashStar "a/*/b") = none
    ∧ expandWorkspaceGlob fsEmpty "a/*/b" = [] :=
  ⟨by decide, by decide,
    unsupported_glob_degrades_amended fsEmpty "a/*/b" (by decide) (by decide)⟩

/-- C4: convention detectors are consulted in the fixed order Lerna,
Yarn Workspaces, npm Workspaces, pnpm Workspaces, Nx, Rush, and the
first detector that claims the directory determines the tool, the
workspaces and the sub-projects, the later detectors never being
consulted; the Lerna/nx tie is settled by the first conjunct, which
holds whatever `nx.json` says. -/
theorem detector_priority_order (fs : FSEntry) :
    ((checkLernaConfig fs).isLerna = true →
      detectMonorepoType fs =
        { isMonorepo := true, tool := "Lerna",
          packageManager := detectPackageManager fs,
          workspaces := (checkLernaConfig fs).packages,
          subProjects := analyzeWorkspaces fs (checkLernaConfig fs).packages })
    ∧ ((checkLernaConfig fs).isLerna = false →
      (checkYarnWorkspaces fs).isYarnWorkspace = true →
      detectMonorepoType fs =
        { isMonorepo := true, tool := "Yarn Workspaces",
          packageManager := detectPackageManager fs,
          workspaces := (checkYarnWorkspaces fs).workspaces,
          subProjects := analyzeWorkspaces fs (checkYarnWorkspaces fs).workspaces })
    ∧ ((checkLernaConfig fs).isLerna = false →
      (checkYarnWorkspaces fs).isYarnWorkspace = false →
      (checkNpmWorkspaces fs).isNpmWorkspace = true →
      detectMonorepoType fs =
        { isMonorepo := true, tool := "npm Workspaces",
          packageManager := detectPackageManager fs,
          workspaces := (checkNpmWorkspaces fs).workspaces,
          subProjects := analyzeWorkspaces fs (checkNpmWorkspaces fs).workspaces })
    ∧ ((checkLernaConfig fs).isLerna = false →
      (checkYarnWorkspaces fs).isYarnWorkspace = false →
      (checkNpmWorkspaces fs).isNpmWorkspace = false →
      (checkPnpmWorkspaces fs).isPnpmWorkspace = true →
      detectMonorepoType fs =
        { isMonorepo := true, tool := "pnpm Workspaces",
          packageManager := detectPackageManager fs,
          workspaces := (checkPnpmWorkspaces fs).workspaces,
          subProjects := analyzeWorkspaces fs (checkPnpmWorkspaces fs).workspaces })
    ∧ ((checkLernaConfig fs).isLerna = false →
      (checkYarnWorkspaces fs).isYarnWorkspace = false →
      (checkNpmWorkspaces fs).isNpmWorkspace = false →
      (checkPnpmWorkspaces fs).isPnpmWorkspace = false →
      (checkNxConfig fs).isNx = true →
      detectMonorepoType fs =
        { isMonorepo := true, tool := "Nx",
          packageManager := detectPackageManager fs,
          workspaces := (checkNxConfig fs).projects,
          subProjects := analyzeNxProjects fs (checkNxConfig fs).projects })
    ∧ ((checkLernaConfig fs).isLerna = false →
      (checkYarnWorkspaces fs).isYarnWorkspace = false →
      (checkNpmWorkspaces fs).isNpmWorkspace = false →
      (checkPnpmWorkspaces fs).isPnpmWorkspace = false →
      (checkNxConfig fs).isNx = false →
      (checkRushConfig fs).isRush = true →
      detectMonorepoType fs =
        { isMonorepo := true, tool := "Rush",
          packageManager := detectPackageManager fs,
          workspaces := (checkRushConfig fs).projects,
          subProjects := analyzeWorkspaces fs (checkRushConfig fs).projects }) := by
  refine ⟨?_, ?_, ?_, ?_, ?_, ?_⟩ <;>
    · intros
      simp [detectMonorepoType, *]

/-- C4 (witness): a root carrying both `lerna.json` and `nx.json`
classifies as Lerna, never Nx. -/
theorem detector_priority_order_witness :
    (checkLernaConfig fsBoth).isLerna = true
    ∧ (checkNxConfig fsBoth).isNx = true
    ∧ (detectMonorepoType fsBoth).tool = "Lerna" := by
  refine ⟨by decide, by decide, ?_⟩
  have h := (detector_priority_order fsBoth).1 (by decide)
  rw [h]

/-- C5: package-manager classification checks the lockfiles in the
fixed order `yarn.lock`, `pnpm-lock.yaml`, `package-lock.json`,
returning the first match and Unknown when none is present; in
particular any root holding a `yarn.lock` — even alongside a
`package-lock.json` — is classified Yarn. -/
theorem package_manager_order (fs : FSEntry) :
    detectPackageManager fs = pmFirstMatch fs
    ∧ (existsEntry fs "yarn.lock" = true → detectPackageManager fs = "Yarn") := by
  constructor
  · by_cases h1 : existsEntry fs "yarn.lock" <;>
      by_cases h2 : existsEntry fs "pnpm-lock.yaml" <;>
      by_cases h3 : existsEntry fs "package-lock.json" <;>
      simp [detectPackageManager, pmFirstMatch, pmRules, List.find?, h1, h2, h3]
  · intro h
    simp [detectPackageManager, h]

/-- C5 (witness): a root with both `yarn.lock` and `package-lock.json`
is classified Yarn. -/
theorem package_manager_order_witness :
    existsEntry fsC5 "yarn.lock" = true
    ∧ existsEntry fsC5 "package-lock.json" = true
    ∧ detectPackageManager fsC5 = "Yarn" :=
  ⟨by decide, by decide, (package_manager_order fsC5).2 (by decide)⟩

/-- C6: the Glob-Lite Expander returns a wildcard-free pattern verbatim
as a one-element sequence; on a pattern of the form dir-slash-star it
returns exactly the immediate subdirectory entries of the base
directory (files excluded) as relative paths in directory-listing
order; and when the base directory is not a listable directory it
returns the empty sequence rather than an error. -/
theorem glob_lite_expander_spec :
    (∀ (fs : FSEntry) (pat : String), hasChar pat '*' = false →
      expandWorkspaceGlob fs pat = [pat])
    ∧ (∀ (fs : FSEntry) (dir : String), hasChar dir '*' = false →
      expandWorkspaceGlob fs (dir ++ "/*") =
        (match FSEntry.readdir fs dir with
         | some entries =>
             (entries.filter (fun e => e.2)).map (fun e => joinRel dir e.1)
         | none => []))
    ∧ (∀ (fs : FSEntry) (dir : String), hasChar dir '*' = false →
      FSEntry.readdir fs dir = none →
      expandWorkspaceGlob fs (dir ++ "/*") = []) := by
  have h2 : ∀ (fs : FSEntry) (dir : String), hasChar dir '*' = false →
      expandWorkspaceGlob fs (dir ++ "/*") =
        (match FSEntry.readdir fs dir with
         | some entries =>
             (entries.filter (fun e => e.2)).map (fun e => joinRel dir e.1)
         | none => []) := by
    intro fs dir h
    rw [expandWorkspaceGlob, hasChar_trailing_star, stripSlashStar_trailing dir h]
    simp
  refine ⟨?_, h2, ?_⟩
  · intro fs pat h
    simp [expandWorkspaceGlob, h]
  · intro fs dir h hr
    rw [h2 fs dir h, hr]

/-- C6 (witness): the spec's example — pattern `packages/\x2a` (the
`\x2a` stands for the star) against a root whose `packages` holds
directories `a`, `b` and a file `readme.txt` — expands to exactly
`packages/a`, `packages/b`. -/
theorem glob_lite_expander_spec_witness :
    hasChar "packages" '*' = false
    ∧ expandWorkspaceGlob fsC6 ("packages" ++ "/*")
        = ["packages/a", "packages/b"] := by
  refine ⟨by decide, ?_⟩
  have h := glob_lite_expander_spec.2.1 fsC6 "packages" (by decide)
  rw [h]
  decide

/-- C7: the Workspace Resolver produces one descriptor per expanded
directory whose manifest is readable and parseable (missing or
unparseable manifests contribute nothing), the descriptor name
defaulting to the directory base name, the output following declaration
order then expansion order with no further sorting — stated as equality
with the resolver transcribed from the specification's words. -/
theorem workspace_resolver_spec_eq (fs : FSEntry) (workspaces : List String) :
    analyzeWorkspaces fs workspaces = workspaceResolverSpec fs workspaces := by
  induction workspaces with
  | nil => rfl
  | cons w ws ih =>
      rw [analyzeWorkspaces, List.flatMap_cons, workspaceResolverSpec,
        filterMap_analyzeDir_eq]
      rw [analyzeWorkspaces] at ih
      rw [ih]

/-- C8: a root directory containing none of the convention markers — no
`lerna.json`, no root-manifest `workspaces` field backed by a yarn or
npm lockfile, no matching `pnpm-workspace.yaml` packages list, no
`nx.json`, no `rush.json` — yields `isMonorepo = false`,
`tool = "None"`, empty workspaces and empty sub-projects. -/
theorem no_markers_not_monorepo (fs : FSEntry)
    (h1 : existsEntry fs "lerna.json" = false)
    (h2 : hasWorkspacesMarker fs = false)
    (h3 : hasPnpmMarker fs = false)
    (h4 : existsEntry fs "nx.json" = false)
    (h5 : existsEntry fs "rush.json" = false) :
    (detectMonorepoType fs).isMonorepo = false
    ∧ (detectMonorepoType fs).tool = "None"
    ∧ (detectMonorepoType fs).workspaces = []
    ∧ (detectMonorepoType fs).subProjects = [] := by
  have hl : (checkLernaConfig fs).isLerna = false := by
    have hn := readFileData_eq_none_of_not_exists fs "lerna.json" h1
    simp [checkLernaConfig, hn]
  have hws : rootWorkspacesField fs = none
      ∨ (existsEntry fs "yarn.lock" = false
          ∧ existsEntry fs "package-lock.json" = false) := by
    by_cases hs : (rootWorkspacesField fs).isSome
    · right
      unfold hasWorkspacesMarker at h2
      rw [hs] at h2
      simpa using h2
    · left
      exact Option.not_isSome_iff_eq_none.mp hs
  have hy : (checkYarnWorkspaces fs).isYarnWorkspace = false := by
    unfold checkYarnWorkspaces
    rcases hws with hnone | ⟨hyl, _⟩
    · unfold rootWorkspacesField at hnone
      cases hm : readFileData fs "package.json" with
      | none => rfl
      | some d =>
          rw [hm] at hnone
          cases d <;> simp_all
    · cases hm : readFileData fs "package.json" with
      | none => rfl
      | some d =>
          cases d <;> try rfl
          rename_i m
          cases hw : m.workspaces with
          | none => simp [hw]
          | some w => simp [hw, checkYarnLock, hyl]
  have hnp : (checkNpmWorkspaces fs).isNpmWorkspace = false := by
    unfold checkNpmWorkspaces
    rcases hws with hnone | ⟨_, hnl⟩
    · unfold rootWorkspacesField at hnone
      cases hm : readFileData fs "package.json" with
      | none => rfl
      | some d =>
          rw [hm] at hnone
          cases d <;> simp_all
    · cases hm : readFileData fs "package.json" with
      | none => rfl
      | some d =>
          cases d <;> try rfl
          rename_i m
          cases hw : m.workspaces with
          | none => simp [hw]
          | some w => simp [hw, checkNpmLock, hnl]
  have hp : (checkPnpmWorkspaces fs).isPnpmWorkspace = false := by
    unfold checkPnpmWorkspaces
    unfold hasPnpmMarker at h3
    cases hm : readFileData fs "pnpm-workspace.yaml" with
    | none => rfl
    | some d =>
        rw [hm] at h3
        cases d <;> try rfl
        rename_i o
        cases o <;> simp_all
  have hnx : (checkNxConfig fs).isNx = false := by
    simp [checkNxConfig, h4]
  have hr : (checkRushConfig fs).isRush = false := by
    have hn := readFileData_eq_none_of_not_exists fs "rush.json" h5
    simp [checkRushConfig, hn]
  simp [detectMonorepoType, hl, hy, hnp, hp, hnx, hr]

/-- C8 (witness): the empty root directory. -/
theorem no_markers_not_monorepo_witness :
    (detectMonorepoType fsEmpty).isMonorepo = false
    ∧ (detectMonorepoType fsEmpty).tool = "None"
    ∧ (detectMonorepoType fsEmpty).workspaces = []
    ∧ (detectMonorepoType fsEmpty).subProjects = [] :=
  no_markers_not_monorepo fsEmpty (by decide) (by decide) (by decide)
    (by decide) (by decide)

/-- C9: `getProjectInfo` is total in the embedding (every internal
failure is an explicit default branch), and when the root manifest is
missing entirely a report is still produced whose project name falls
back to the directory's base name with the has-package.json flag
false. -/
theorem missing_manifest_degraded_report (projectPath : String) (fs : FSEntry)
    (h : lookupPath (splitPath "package.json") fs = none) :
    (getProjectInfo projectPath fs).projectName = basename projectPath
    ∧ (getProjectInfo projectPath fs).hasPackageJson = false := by
  constructor <;> simp [getProjectInfo, h]

/-- C9 (witness): the empty root directory, inspected at path
`/home/proj`. -/
theorem missing_manifest_degraded_report_witness :
    lookupPath (splitPath "package.json") fsEmpty = none
    ∧ basename "/home/proj" = "proj"
    ∧ (getProjectInfo "/home/proj" fsEmpty).projectName = basename "/home/proj"
    ∧ (getProjectInfo "/home/proj" fsEmpty).hasPackageJson = false := by
  refine ⟨by rfl, by decide, ?_, ?_⟩
  · exact (missing_manifest_degraded_report "/home/proj" fsEmpty (by rfl)).1
  · exact (missing_manifest_degraded_report "/home/proj" fsEmpty (by rfl)).2

/-- C10 (counterexample): a sub-project manifest mapping `typescript`
to the empty version string has the key in its merged dependency set,
yet the descriptor's TypeScript flag is `false` — refuting the claimed
"contains the key" biconditional (the code tests JS truthiness of the
value, not key presence). -/
theorem sub_project_ts_key_iff_refuted :
    (lookupVal (mergeDeps [] [("typescript", "")]) "typescript").isSome = true
    ∧ (analyzeWorkspaces fsC10 ["pkg"]).map (fun d => d.hasTypeScript)
        = [false] := by
  refine ⟨by decide, by decide⟩

/-- C10 (amended): a sub-project descriptor's TypeScript flag — in both
the generic and the Nx analyzer — is true iff the merged dependency set
maps `typescript` or `@types/node` to a truthy (non-empty) version
string, a function of the directory's manifest alone, so a
`tsconfig.json` in the sub-project never affects it; the root flag, by
contrast, also ORs in the presence of `tsconfig.json`. -/
theorem sub_project_ts_flag_amended :
    (∀ (fs : FSEntry) (ws : List String) (d : SubProject),
      d ∈ analyzeWorkspaces fs ws → d.hasTypeScript = subTsFlag fs d.relativePath)
    ∧ (∀ (fs : FSEntry) (projects : List String),
      (analyzeNxProjects fs projects).map (fun d => d.hasTypeScript)
        = projects.map (nxTsFlag fs))
    ∧ (∀ (projectPath : String) (fs : FSEntry),
      (getProjectInfo projectPath fs).hasTypeScript
        = (tsFlagOfDeps (rootMergedDeps fs) || existsEntry fs "tsconfig.json")) := by
  refine ⟨?_, ?_, ?_⟩
  · intro fs ws d hd
    rw [analyzeWorkspaces] at hd
    obtain ⟨w, _, hmem⟩ := List.mem_flatMap.mp hd
    obtain ⟨p, _, heq⟩ := List.mem_filterMap.mp hmem
    unfold analyzeDir at heq
    cases hm : readManifestAt fs p with
    | none => rw [hm] at heq; simp at heq
    | some m =>
        rw [hm] at heq
        simp only [Option.some.injEq] at heq
        subst heq
        simp [subTsFlag, hm]
  · intro fs projects
    induction projects with
    | nil => rfl
    | cons p ps ih =>
        rw [analyzeNxProjects, List.map_cons, List.map_cons, List.map_cons]
        rw [analyzeNxProjects] at ih
        rw [ih]
        have : (nxDescriptor fs p).hasTypeScript = nxTsFlag fs p := by
          unfold nxDescriptor nxTsFlag
          cases readManifestAt fs p <;> rfl
        rw [this]
  · intro projectPath fs
    unfold getProjectInfo rootMergedDeps checkTypeScriptConfig
    cases he : lookupPath (splitPath "package.json") fs with
    | none => rfl
    | some e =>
        cases e with
        | dir es => rfl
        | file d => cases d <;> rfl

/-- C10 (witness): the amended theorem's first part applied to a
concrete descriptor of a concrete resolution. -/
theorem sub_project_ts_flag_amended_witness :
    dC10 ∈ analyzeWorkspaces fsC10w ["pkg"]
    ∧ dC10.hasTypeScript = subTsFlag fsC10w dC10.relativePath :=
  ⟨by decide, sub_project_ts_flag_amended.1 fsC10w ["pkg"] dC10 (by decide)⟩
